import Mathlib

/-!
Shallow embedding of the MedQA multi-agent recruitment and consensus protocol
(src/agents/*.py) and proofs about its specified properties.

Conventions:
* Python `dict[str, T]` values are embedded as association lists `List (String × T)`
  in insertion order (Python 3.7+ dicts preserve insertion order).
* Python floats are embedded as exact rationals `ℚ`; every arithmetic step of the
  source is mirrored on `ℚ`.
* Calls into the language-model collaborator (`BaseAgent.chat` and friends) are
  external to the core; where a component consumes model output, the embedding
  takes that output (or the whole invocation result) as an explicit parameter.
-/

namespace MedQA

/-! ## String helpers mirroring the Python primitives used by the source -/

/-- Tests whether `hay` starts with `needle`. -/
def startsWithList : List Char → List Char → Bool
  | [], _ => true
  | _ :: _, [] => false
  | c :: cs, d :: ds => c = d && startsWithList cs ds

/-- Python's substring test `needle in hay` on character lists. -/
def containsSubList (needle : List Char) : List Char → Bool
  | [] => startsWithList needle []
  | hay@(_ :: t) => startsWithList needle hay || containsSubList needle t

/-- Python's substring test `needle in hay` on strings. -/
def containsSub (hay needle : String) : Bool :=
  containsSubList needle.toList hay.toList

/-- Everything after the first `:` of a line, or `none` when there is no colon.
Mirrors Python `line.split(':', 1)[1]` (which raises when no colon exists). -/
def afterColonList : List Char → Option (List Char)
  | [] => none
  | c :: rest => if c = ':' then some rest else afterColonList rest

/-- Python `line.split(':', 1)[1].strip() if ':' in line else ""`. -/
def afterColonOrEmpty (line : String) : String :=
  match afterColonList line.toList with
  | some r => (String.mk r).trim
  | none => ""

/-- Digits to a natural number (caller guarantees the characters are digits). -/
def natOfDigits (l : List Char) : Nat :=
  l.foldl (fun n c => 10 * n + (c.toNat - '0'.toNat)) 0

/-- Modelled from the spec: Python's builtin `float()` applied to the stripped
remainder of a `CONFIDENCE:` line, restricted to plain decimal literals
(optional sign, digits, optional fraction). Scientific notation, `inf`/`nan`
and underscores are not modelled; on anything unrecognised the parse fails,
which the caller treats like Python's `ValueError`. -/
def parseFloatQ (s : String) : Option ℚ :=
  match s.toList with
  | [] => none
  | cs0 =>
    let signAndRest : ℚ × List Char :=
      match cs0 with
      | '-' :: t => (-1, t)
      | '+' :: t => (1, t)
      | t => (1, t)
    let sgn := signAndRest.1
    let cs := signAndRest.2
    let intPart := cs.takeWhile Char.isDigit
    let rest := cs.dropWhile Char.isDigit
    match rest with
    | [] =>
      if intPart.isEmpty then none
      else some (sgn * (natOfDigits intPart : ℚ))
    | '.' :: fracs =>
      if fracs.all Char.isDigit && !(intPart.isEmpty && fracs.isEmpty) then
        some (sgn * ((natOfDigits intPart : ℚ) +
          (natOfDigits fracs : ℚ) / ((10 : ℚ) ^ fracs.length)))
      else none
    | _ => none

/-! ## Counter helpers (Python `collections.Counter`)

`Counter` iteration order is the order of first occurrence of each key
(insertion order); `most_common` sorts by count descending, stable, so
`most_common(1)[0]` is the first-inserted key among those with maximal count. -/

/-- The distinct elements of `l` in order of first occurrence
(the key order of `Counter(l)`). -/
def firstOccs {α : Type} [DecidableEq α] : List α → List α
  | [] => []
  | a :: l => a :: firstOccs (l.filter (fun b => b ≠ a))
termination_by l => l.length
decreasing_by
  simp only [List.length_cons]
  exact Nat.lt_succ_of_le (List.length_filter_le _ _)

/-- Embeds `Counter(l).items()` as an association list in insertion order. -/
def counterItems {α : Type} [DecidableEq α] (l : List α) : List (α × Nat) :=
  (firstOccs l).map (fun a => (a, l.count a))

/-- Embeds `max(...)`/`most_common(1)[0]` over counted items: the first item (in
iteration order) whose count is maximal; `none` on an empty list. -/
def mostCommon1 {α : Type} (items : List (α × Nat)) : Option (α × Nat) :=
  items.foldl
    (fun acc p =>
      match acc with
      | none => some p
      | some q => if q.2 < p.2 then some p else some q)
    none

/-! ## `BaseAgent.chat` (src/agents/base_agent.py, lines 46-91)

The OpenAI invocation itself is the excluded collaborator; its outcome enters
the embedding as an `Except String String` (error message, or response text).
Token counting (`tiktoken`) is likewise external and enters as a function. -/

structure TokenUsage where
  input_tokens : Nat
  output_tokens : Nat
  total_tokens : Nat
deriving Repr, DecidableEq

/-- The second component of `chat`'s return value: a usage record on success,
or the dict `{"error": str(e)}` on failure. -/
inductive ChatInfo where
  | usage (u : TokenUsage)
  | error (msg : String)
deriving Repr, DecidableEq

structure HistoryEntry where
  role : String
  message : String
  response : String
  tokens : Nat
deriving Repr, DecidableEq

/-- The `BaseAgent` state that `chat` reads and writes. -/
structure AgentState where
  role : String
  instruction : String
  few_shot_examples : List (String × String)
  conversation_history : List HistoryEntry
deriving Repr, DecidableEq

/-- Embeds `BaseAgent.create_messages`: system instruction, few-shot pairs, query. -/
def create_messages (st : AgentState) (query : String) : List (String × String) :=
  ("system", st.instruction) ::
    (st.few_shot_examples.flatMap (fun ex => [("user", ex.1), ("assistant", ex.2)])) ++
    [("user", query)]

/-- Embeds `BaseAgent.chat`. `countTokens` stands for the tiktoken encoder; `invoke`
is the outcome of the `self.client.chat.completions.create(...)` call (the
`try` block catches any exception `e` and returns `("", {"error": str(e)})`
without touching the conversation history). Returns the `(text, info)` pair
together with the updated agent state. -/
def chat (countTokens : String → Nat) (st : AgentState) (message : String)
    (invoke : Except String String) : (String × ChatInfo) × AgentState :=
  let messages := create_messages st message
  let input_tokens := (messages.map (fun m => countTokens m.2)).sum
  match invoke with
  | Except.ok answer =>
    let output_tokens := countTokens answer
    let total_tokens := input_tokens + output_tokens
    ((answer, ChatInfo.usage ⟨input_tokens, output_tokens, total_tokens⟩),
      { st with conversation_history := st.conversation_history ++
          [⟨st.role, message, answer, total_tokens⟩] })
  | Except.error e => (("", ChatInfo.error e), st)

/-! ## `SpecialistAgent._parse_vote` (src/agents/specialist_agent.py, lines 179-208) -/

structure VoteData where
  choice : Option String
  confidence : ℚ
  rationale : String
  raw_response : String
deriving Repr, DecidableEq

/-- The letter list hard-coded in `_parse_vote`. -/
def voteLetters : List Char := ['A', 'B', 'C', 'D', 'E']

/-- Embeds `for char in line: if char.upper() in ['A','B','C','D','E']`. -/
def firstVoteLetter (line : String) : Option Char :=
  (line.toList.find? (fun c => c.toUpper ∈ voteLetters)).map Char.toUpper

/-- Embeds `SpecialistAgent._parse_vote`: scan the lines; a `VOTE:` line sets the
choice to the first A-E character on the line (upper-cased); a `CONFIDENCE:`
line parses the remainder as float inside `try/except` (failure leaves the
0.5 default); a `RATIONALE:` line takes the text after the first colon. -/
def parse_vote (response : String) : VoteData :=
  (response.splitOn "\n").foldl
    (fun vd line =>
      let line_upper := line.toUpper
      if containsSub line_upper "VOTE:" then
        match firstVoteLetter line with
        | some c => { vd with choice := some (String.singleton c) }
        | none => vd
      else if containsSub line_upper "CONFIDENCE:" then
        match afterColonList line.toList with
        | some rest =>
          match parseFloatQ (String.mk rest).trim with
          | some q => { vd with confidence := q }
          | none => vd
        | none => vd
      else if containsSub line_upper "RATIONALE:" then
        { vd with rationale := afterColonOrEmpty line }
      else vd)
    { choice := none, confidence := 1/2, rationale := "", raw_response := response }

/-! ## SBAR parsing

All three `_parse_sbar` implementations (medical_agent.py lines 165-207,
specialist_agent.py lines 56-98, team_lead_agent.py lines 684-759) share the
same four-header section scan; they differ in how `recommended_answer` is
extracted. -/

structure Sbar where
  situation : String
  background : String
  assessment : String
  recommendation : String
  recommended_answer : Option String
  raw_response : String
deriving Repr, DecidableEq

inductive SbarField where
  | situation | background | assessment | recommendation
deriving Repr, DecidableEq

def setSbarField (s : Sbar) (f : SbarField) (v : String) : Sbar :=
  match f with
  | SbarField.situation => { s with situation := v }
  | SbarField.background => { s with background := v }
  | SbarField.assessment => { s with assessment := v }
  | SbarField.recommendation => { s with recommendation := v }

def getSbarField (s : Sbar) (f : SbarField) : String :=
  match f with
  | SbarField.situation => s.situation
  | SbarField.background => s.background
  | SbarField.assessment => s.assessment
  | SbarField.recommendation => s.recommendation

/-- One line of the shared section scan of `_parse_sbar`: a line whose
upper-casing contains a section header opens that section with the text after
the first colon; any other line while a section is open is appended
(space-joined, stripped). -/
def sbar_scan_step (st : Sbar × Option SbarField) (line : String) : Sbar × Option SbarField :=
  let sbar := st.1
  let current_section := st.2
  let line_upper := line.toUpper
  if containsSub line_upper "SITUATION:" then
    (setSbarField sbar SbarField.situation (afterColonOrEmpty line),
      some SbarField.situation)
  else if containsSub line_upper "BACKGROUND:" then
    (setSbarField sbar SbarField.background (afterColonOrEmpty line),
      some SbarField.background)
  else if containsSub line_upper "ASSESSMENT:" then
    (setSbarField sbar SbarField.assessment (afterColonOrEmpty line),
      some SbarField.assessment)
  else if containsSub line_upper "RECOMMENDATION:" then
    (setSbarField sbar SbarField.recommendation (afterColonOrEmpty line),
      some SbarField.recommendation)
  else
    match current_section with
    | some f =>
      (setSbarField sbar f (getSbarField sbar f ++ " " ++ line.trim), some f)
    | none => (sbar, none)

/-- The shared section scan of `_parse_sbar` over all lines of the response. -/
def parse_sbar_sections (response : String) : Sbar :=
  (((response.splitOn "\n").foldl sbar_scan_step
    ({ situation := "", background := "", assessment := "", recommendation := "",
       recommended_answer := none, raw_response := response }, none))).1

/-- Embeds `SpecialistAgent._parse_sbar` (also `MedicalAgent._parse_sbar`): the first
option key `key` (in option order) with `key)`, `(key)` or `Answer: key`
occurring in the raw response becomes the recommended answer. -/
def specialist_parse_sbar (response : String) (options : List String) : Sbar :=
  let sbar := parse_sbar_sections response
  let ans := options.find? (fun key =>
    containsSub response (key ++ ")") || containsSub response ("(" ++ key ++ ")") ||
      containsSub response ("Answer: " ++ key))
  { sbar with recommended_answer := ans }

/-! ### The team lead's regex-based answer extraction

`TeamLeadAgent._parse_sbar` runs `re.findall` for six patterns against the
upper-cased response. Each pattern is embedded as a matcher that attempts a
match at the head of a character list and returns the captured letter together
with the remainder after the match (so that, like `re.findall`, scanning
resumes after a non-overlapping match). Note the patterns are applied verbatim
(no IGNORECASE), exactly as in the source: patterns containing lower-case
literals such as `Answer:` or `choose` can never match the upper-cased text. -/

def isLetterAE (c : Char) : Bool := c ∈ voteLetters

/-- Match a literal character sequence, returning the rest. -/
def matchLit : List Char → List Char → Option (List Char)
  | [], l => some l
  | _ :: _, [] => none
  | c :: cs, d :: ds => if c = d then matchLit cs ds else none

/-- Embeds `Answer:\s*\(?([A-E])\)?` at the head of the list. -/
def matchAnswerAt (l : List Char) : Option (Char × List Char) :=
  match matchLit "Answer:".toList l with
  | none => none
  | some r0 =>
    let r1 := r0.dropWhile Char.isWhitespace
    let r2 := match r1 with
      | '(' :: t => t
      | _ => r1
    match r2 with
    | c :: t =>
      if isLetterAE c then
        some (c, match t with
          | ')' :: t2 => t2
          | _ => t)
      else none
    | [] => none

/-- Embeds `lit\s*([A-E])` at the head of the list (used for `Option`, `choose`,
`select`). -/
def matchLitWsLetterAt (lit : String) (l : List Char) : Option (Char × List Char) :=
  match matchLit lit.toList l with
  | none => none
  | some r0 =>
    let r1 := r0.dropWhile Char.isWhitespace
    match r1 with
    | c :: t => if isLetterAE c then some (c, t) else none
    | [] => none

/-- Embeds `\(([A-E])\)` at the head of the list. -/
def matchParenAt (l : List Char) : Option (Char × List Char) :=
  match l with
  | '(' :: c :: ')' :: t => if isLetterAE c then some (c, t) else none
  | _ => none

/-- Embeds `([A-E])\)` at the head of the list (body of the `^`-anchored pattern). -/
def matchLetterParenAt (l : List Char) : Option (Char × List Char) :=
  match l with
  | c :: ')' :: t => if isLetterAE c then some (c, t) else none
  | _ => none

/-- Embeds `re.findall` for an unanchored pattern: scan left to right, collecting the
captured letter of each non-overlapping match. Each matcher consumes at least
one character on success, so `fuel` initialised to the list length never runs
out. -/
def findallAux (m : List Char → Option (Char × List Char)) : Nat → List Char → List Char
  | 0, _ => []
  | _ + 1, [] => []
  | fuel + 1, l@(_ :: t) =>
    match m l with
    | some (cap, rest) => cap :: findallAux m fuel rest
    | none => findallAux m fuel t

def re_findall (m : List Char → Option (Char × List Char)) (l : List Char) : List Char :=
  findallAux m l.length l

/-- Embeds `re.findall` for the `^([A-E])\)` pattern: without `re.MULTILINE`, `^`
anchors to the start of the whole string only. -/
def findallAnchored (m : List Char → Option (Char × List Char)) (l : List Char) : List Char :=
  match m l with
  | some (cap, _) => [cap]
  | none => []

/-- The six `answer_patterns` of `TeamLeadAgent._parse_sbar`, in source order,
each applied to the upper-cased response. -/
def answerPatternMatches (response_upper : List Char) : List (List Char) :=
  [re_findall matchAnswerAt response_upper,
   re_findall (matchLitWsLetterAt "Option") response_upper,
   re_findall matchParenAt response_upper,
   findallAnchored matchLetterParenAt response_upper,
   re_findall (matchLitWsLetterAt "choose") response_upper,
   re_findall (matchLitWsLetterAt "select") response_upper]

/-- Embeds `for pattern in answer_patterns: ... if matches: candidate = matches[-1];
if candidate in options: set and break` — note a non-empty match list whose
last capture is not a valid option key does NOT stop the pattern loop. -/
def tryAnswerPatterns (options : List String) : List (List Char) → Option String
  | [] => none
  | ms :: rest =>
    match ms.getLast? with
    | some c =>
      if String.singleton c ∈ options then some (String.singleton c)
      else tryAnswerPatterns options rest
    | none => tryAnswerPatterns options rest

/-- Python `hay.count(needle)`: non-overlapping occurrences of a (non-empty)
substring, scanning left to right. -/
def strCountAux (needle : List Char) : Nat → List Char → Nat
  | 0, _ => 0
  | _ + 1, [] => 0
  | fuel + 1, hay@(_ :: t) =>
    if startsWithList needle hay then 1 + strCountAux needle fuel (hay.drop needle.length)
    else strCountAux needle fuel t

def strCount (hay needle : List Char) : Nat := strCountAux needle hay.length hay

/-- The fallback of `TeamLeadAgent._parse_sbar`: count each option key in the
upper-cased response; pick `max(option_counts, key=option_counts.get)` (the
first key in option order with maximal count); accept it only if it occurs at
least once. -/
def fallbackAnswer (response_upper : List Char) (options : List String) : Option String :=
  let option_counts := options.map (fun key => (key, strCount response_upper key.toList))
  match mostCommon1 option_counts with
  | some p => if 0 < p.2 then some p.1 else none
  | none => none

/-- Embeds `TeamLeadAgent._parse_sbar` (team_lead_agent.py lines 684-759). -/
def team_lead_parse_sbar (response : String) (options : List String) : Sbar :=
  let sbar := parse_sbar_sections response
  let response_upper := response.toUpper.toList
  match tryAnswerPatterns options (answerPatternMatches response_upper) with
  | some a => { sbar with recommended_answer := some a }
  | none =>
    match fallbackAnswer response_upper options with
    | some a => { sbar with recommended_answer := some a }
    | none => sbar

/-! ## `MedicalSpecialties.SPECIALTIES` (src/agents/medical_specialties.py, lines 9-97) -/

structure SpecInfo where
  expertise : String
  keywords : List String
deriving Repr, DecidableEq

def SPECIALTIES : List (String × SpecInfo) :=
  [("Primary Care Physician",
    ⟨"general medicine, preventive care, common conditions, initial diagnosis",
     ["general", "routine", "checkup", "common", "prevention"]⟩),
   ("Internal Medicine",
    ⟨"adult diseases, complex diagnoses, chronic disease management",
     ["adult", "chronic", "complex", "systemic"]⟩),
   ("Cardiologist",
    ⟨"heart conditions, cardiovascular disease, hypertension, arrhythmias",
     ["heart", "cardiac", "chest pain", "hypertension", "ECG", "blood pressure"]⟩),
   ("Pulmonologist",
    ⟨"lung diseases, respiratory conditions, breathing problems",
     ["lung", "breathing", "respiratory", "cough", "dyspnea", "asthma"]⟩),
   ("Gastroenterologist",
    ⟨"digestive system, GI disorders, liver diseases",
     ["stomach", "abdomen", "digestive", "liver", "bowel", "nausea"]⟩),
   ("Nephrologist",
    ⟨"kidney diseases, renal function, dialysis, electrolyte disorders",
     ["kidney", "renal", "creatinine", "dialysis", "urine"]⟩),
   ("Neurologist",
    ⟨"brain and nervous system disorders, headaches, seizures, stroke",
     ["brain", "headache", "seizure", "nervous", "stroke", "neurological"]⟩),
   ("Endocrinologist",
    ⟨"hormonal disorders, diabetes, thyroid diseases, metabolic conditions",
     ["diabetes", "thyroid", "hormone", "endocrine", "metabolic"]⟩),
   ("General Surgeon",
    ⟨"surgical procedures, trauma, acute abdomen",
     ["surgery", "surgical", "trauma", "acute", "operation"]⟩),
   ("Orthopedic Surgeon",
    ⟨"bone and joint disorders, fractures, musculoskeletal conditions",
     ["bone", "joint", "fracture", "orthopedic", "musculoskeletal"]⟩),
   ("Psychiatrist",
    ⟨"mental health, psychiatric disorders, behavioral issues",
     ["mental", "psychiatric", "depression", "anxiety", "behavioral"]⟩),
   ("Dermatologist",
    ⟨"skin conditions, rashes, skin cancer",
     ["skin", "rash", "dermatology", "lesion", "mole"]⟩),
   ("Hematologist",
    ⟨"blood disorders, anemia, clotting disorders, blood cancers",
     ["blood", "anemia", "bleeding", "clotting", "hematology"]⟩),
   ("Infectious Disease",
    ⟨"infections, tropical diseases, immunocompromised conditions",
     ["infection", "fever", "tropical", "antibiotic", "virus"]⟩),
   ("Rheumatologist",
    ⟨"autoimmune diseases, arthritis, joint inflammation",
     ["arthritis", "autoimmune", "joint pain", "inflammation", "rheumatic"]⟩),
   ("Oncologist",
    ⟨"cancer diagnosis and treatment, chemotherapy, tumor management",
     ["cancer", "tumor", "oncology", "chemotherapy", "malignancy"]⟩),
   ("Emergency Medicine",
    ⟨"acute care, trauma, emergency conditions, triage",
     ["emergency", "acute", "trauma", "urgent", "critical"]⟩),
   ("Pediatrician",
    ⟨"children's health, developmental issues, pediatric diseases",
     ["child", "pediatric", "infant", "developmental", "growth"]⟩),
   ("Radiologist",
    ⟨"medical imaging interpretation, X-rays, CT, MRI, ultrasound",
     ["imaging", "X-ray", "CT", "MRI", "radiology", "scan"]⟩),
   ("Pathologist",
    ⟨"disease diagnosis through lab tests, tissue examination, biopsies",
     ["biopsy", "lab", "pathology", "tissue", "microscopic"]⟩)]

/-- Embeds `MedicalSpecialties.get_specialist_description`. -/
def get_specialist_description (specialty : String) : String :=
  match SPECIALTIES.find? (fun p => p.1 = specialty) with
  | some p => p.2.expertise
  | none => "medical expertise"

/-! ## `RecruiterAgent.calculate_relevance_scores` (src/agents/recruiter.py, lines 25-60) -/

/-- The `critical_terms` table inside `calculate_relevance_scores`. -/
def critical_terms : List (String × List String) :=
  [("emergency", ["Emergency Medicine", "Trauma Surgeon"]),
   ("child", ["Pediatrician", "Pediatric Specialist"]),
   ("cancer", ["Oncologist", "Hematologist", "Radiologist"]),
   ("heart", ["Cardiologist", "Cardiac Surgeon"]),
   ("brain", ["Neurologist", "Neurosurgeon"]),
   ("infection", ["Infectious Disease", "Internal Medicine"])]

/-- The un-normalised `keyword_score` of one specialty: 2 per keyword occurring
as a substring of the lower-cased question, +5 if the specialty's own
lower-cased name occurs, +3 per critical term that occurs and lists the
specialty. -/
def keyword_score (question_lower : String) (specialty : String) (info : SpecInfo) : Nat :=
  2 * info.keywords.countP (fun keyword => containsSub question_lower keyword) +
    (if containsSub question_lower specialty.toLower then 5 else 0) +
    3 * critical_terms.countP
      (fun p => containsSub question_lower p.1 && specialty ∈ p.2)

/-- The `scores` dict: only specialties with a positive score are kept,
in catalog order. -/
def raw_scores (question : String) : List (String × Nat) :=
  let question_lower := question.toLower
  SPECIALTIES.filterMap (fun p =>
    let k := keyword_score question_lower p.1 p.2
    if 0 < k then some (p.1, k) else none)

/-- Embeds `max(scores.values()) if scores else 1`. -/
def max_raw_score (scores : List (String × Nat)) : Nat :=
  if scores.isEmpty then 1 else (scores.map Prod.snd).foldr max 0

/-- Embeds `RecruiterAgent.calculate_relevance_scores`: normalise each kept score by
the maximum kept score. -/
def calculate_relevance_scores (question : String) : List (String × ℚ) :=
  let scores := raw_scores question
  let max_score := max_raw_score scores
  scores.map (fun p => (p.1, (p.2 : ℚ) / (max_score : ℚ)))

/-! ## `RecruiterAgent.recruit_for_moderate_complexity` (recruiter.py, lines 72-131) -/

structure TeamMember where
  agent_id : String
  specialty : String
  role : String
  expertise : String
  relevance_score : ℚ
  decision_weight : ℚ
deriving Repr, DecidableEq

/-- Python `sorted(pairs, key=lambda x: x[1], reverse=True)`: stable descending
sort by score. -/
def sortByScoreDesc (l : List (String × ℚ)) : List (String × ℚ) :=
  l.mergeSort (fun a b => decide (b.2 ≤ a.2))

/-- Embeds `dict.get k default` on an association list. -/
def dictGetD (l : List (String × ℚ)) (k : String) (d : ℚ) : ℚ :=
  match l.find? (fun p => p.1 = k) with
  | some p => p.2
  | none => d

/-- The specialist-selection loop: walk the (top-8) relevance-sorted list;
append a candidate when its specialty occurs fewer than 2 times so far or its
score exceeds 0.8; stop as soon as 4 have been selected. (Since dict keys are
unique, every specialty occurs at most once in the input, so the count test is
always true; it is embedded anyway, faithful to the source.) -/
def select_specialists : List (String × ℚ) → List (String × ℚ) → List (String × ℚ)
  | [], acc => acc
  | (specialty, score) :: rest, acc =>
    if (acc.countP (fun p => p.1 = specialty)) < 2 || decide ((8:ℚ)/10 < score) then
      let acc2 := acc ++ [(specialty, score)]
      if 4 ≤ acc2.length then acc2 else select_specialists rest acc2
    else select_specialists rest acc

/-- The local `selected_specialists` after the backfill step: if fewer than 4 were
selected, extend with the not-yet-used specialties (score defaulting to 0.1),
stably sorted by descending score, taking just enough to reach 4. -/
def selected_specialists (question : String) : List (String × ℚ) :=
  let relevance_scores := calculate_relevance_scores question
  let sorted_specialists := sortByScoreDesc relevance_scores
  let selected := select_specialists (sorted_specialists.take 8) []
  if selected.length < 4 then
    let remaining := (SPECIALTIES.map Prod.fst).filter
      (fun s => selected.countP (fun p => p.1 = s) = 0)
      |>.map (fun s => (s, dictGetD relevance_scores s (1/10)))
    let remaining_sorted := sortByScoreDesc remaining
    selected ++ remaining_sorted.take (4 - selected.length)
  else selected

/-- Embeds `total_relevance = sum(score for _, score in selected_specialists)`. -/
def total_relevance (question : String) : ℚ :=
  ((selected_specialists question).map Prod.snd).sum

/-- Embeds `RecruiterAgent.recruit_for_moderate_complexity`: the fixed Internal
Medicine lead (relevance 0.9, weight 0.3) followed by the first 4 selected
specialists, each weighted `(score / total_relevance) * 0.7` (0.175 when the
total is 0). -/
def recruit_for_moderate_complexity (question : String) : List TeamMember :=
  let selected := selected_specialists question
  let total := total_relevance question
  let lead : TeamMember :=
    { agent_id := "lead_physician", specialty := "Internal Medicine",
      role := "Team Lead",
      expertise := get_specialist_description "Internal Medicine",
      relevance_score := 9/10, decision_weight := 3/10 }
  lead :: (selected.take 4).enum.map (fun p =>
    { agent_id := "specialist_" ++ toString (p.1 + 1), specialty := p.2.1,
      role := "Consulting Specialist",
      expertise := get_specialist_description p.2.1,
      relevance_score := p.2.2,
      decision_weight := if 0 < total then (p.2.2 / total) * (7/10) else 7/40 })

/-! ## `TeamLeadAgent` consensus coordination (src/agents/team_lead_agent.py)

`self.consensus_threshold = 0.8`. -/

def consensus_threshold : ℚ := 8/10

/-- The recommendations collected by `check_initial_consensus`: values of
`recommended_answer` that are present and truthy (Python: `'recommended_answer'
in assessment and assessment['recommended_answer']`; the key is always present
in a parsed SBAR, and truthiness excludes `None` and the empty string). -/
def recommendationsOf (silent_assessments : List (String × Sbar)) : List String :=
  silent_assessments.filterMap (fun p =>
    match p.2.recommended_answer with
    | some r => if r = "" then none else some r
    | none => none)

/-- Result of `check_initial_consensus`. The two early-return dicts of the
source carry only `has_consensus`/`choice`; the missing keys are embedded as
`0`/`[]`. -/
structure InitialConsensus where
  has_consensus : Bool
  choice : Option String
  agreement_rate : ℚ
  vote_breakdown : List (String × Nat)
deriving Repr, DecidableEq

/-- Embeds `TeamLeadAgent.check_initial_consensus` (lines 99-162): tally truthy
recommendations; return the first option (in Counter insertion order) whose
share reaches the threshold, else the majority choice with its share. -/
def check_initial_consensus (silent_assessments : List (String × Sbar)) : InitialConsensus :=
  let recommendations := recommendationsOf silent_assessments
  if recommendations.isEmpty then
    { has_consensus := false, choice := none, agreement_rate := 0, vote_breakdown := [] }
  else
    let vote_counts := counterItems recommendations
    let total_votes := recommendations.length
    match vote_counts.find? (fun p =>
        decide (consensus_threshold ≤ (p.2 : ℚ) / (total_votes : ℚ))) with
    | some p =>
      { has_consensus := true, choice := some p.1,
        agreement_rate := (p.2 : ℚ) / (total_votes : ℚ), vote_breakdown := vote_counts }
    | none =>
      match mostCommon1 vote_counts with
      | some p =>
        { has_consensus := false, choice := some p.1,
          agreement_rate := (p.2 : ℚ) / (total_votes : ℚ), vote_breakdown := vote_counts }
      | none =>
        { has_consensus := false, choice := none, agreement_rate := 0, vote_breakdown := [] }

/-- The decision record produced at protocol termination. The presentation-only
free-text fields of the source dicts (`rationale`, `team_summary`,
`confidence`, `raw_response`, ...) merely interpolate the fields kept here and
are not modelled. `make_final_decision_with_interaction` produces a dict with
no `early_consensus` key at all, which Python lookups treat as false. -/
structure Decision where
  choice : Option String
  consensus_achieved : Bool
  early_consensus : Bool
  final_agreement_rate : ℚ
deriving Repr, DecidableEq

/-- Embeds `TeamLeadAgent.make_final_decision` (lines 543-575): the early-consensus
decision; re-runs `check_initial_consensus` and uses its choice directly. -/
def make_final_decision (silent_assessments : List (String × Sbar)) : Decision :=
  let initial_consensus := check_initial_consensus silent_assessments
  { choice := initial_consensus.choice,
    consensus_achieved := true,
    early_consensus := true,
    final_agreement_rate := initial_consensus.agreement_rate }

/-- Observable events of one coordinated case. -/
inductive Event where
  | discussion (round : Nat)
  | moderator_feedback (round : Nat)
  | final_decision (d : Decision)
deriving Repr, DecidableEq

/-- The `while r < max_rounds and not consensus` loop of
`coordinate_moderate_complexity_case` (lines 58-94): each iteration runs one
collaborative discussion, then checks consensus (`poll r` abstracts the
outcome of `check_consensus` in round `r`, which depends on model output);
on failure with rounds remaining, moderator feedback is generated and
delivered before the next iteration. -/
def consensus_round_loop (poll : Nat → Bool) (max_rounds : Nat) (r : Nat) : List Event :=
  if h : r < max_rounds then
    Event.discussion r ::
      (if poll r then []
       else (if r < max_rounds - 1 then [Event.moderator_feedback r] else []) ++
         consensus_round_loop poll max_rounds (r + 1))
  else []
termination_by max_rounds - r
decreasing_by omega

/-- Embeds `TeamLeadAgent.coordinate_moderate_complexity_case` (lines 33-97) as its
trace of events. If the silent assessments already show consensus, the early
`make_final_decision` is returned before any round; otherwise the round loop
runs and `make_final_decision_with_interaction` (a model call plus a final
consensus check, abstracted here as `final_decision_result`) runs exactly once
after it. -/
def coordinate_moderate_complexity_case (silent_assessments : List (String × Sbar))
    (poll : Nat → Bool) (final_decision_result : Decision) (max_rounds : Nat) : List Event :=
  if (check_initial_consensus silent_assessments).has_consensus then
    [Event.final_decision (make_final_decision silent_assessments)]
  else
    consensus_round_loop poll max_rounds 0 ++
      [Event.final_decision { final_decision_result with early_consensus := false }]

def countDiscussions (trace : List Event) : Nat :=
  trace.countP (fun e => match e with | Event.discussion _ => true | _ => false)

def countFinalDecisions (trace : List Event) : Nat :=
  trace.countP (fun e => match e with | Event.final_decision _ => true | _ => false)

/-! ## In-round consensus polling (`check_consensus`, lines 250-291) -/

/-- The per-case state of a consulting `SpecialistAgent` that the poll reads. -/
structure MemberState where
  agent_id : String
  specialty : String
  relevance_score : ℚ
  silent_assessment : Option Sbar
  vote : Option VoteData
deriving Repr, DecidableEq

/-- Embeds `TeamLeadAgent._quick_poll_member` (lines 444-449): if the member has a
truthy `silent_assessment`, return
`member.silent_assessment.get('recommended_answer', 'A')` — the key is always
present in a parsed SBAR, so this is the stored value, WHICH MAY BE `None`
(the `'A'` default only applies when the key is missing); otherwise `'A'`.
The member's `vote` field is never consulted. -/
def quick_poll_member (member : MemberState) : Option String :=
  match member.silent_assessment with
  | some a => a.recommended_answer
  | none => some "A"

/-- Embeds `TeamLeadAgent._get_lead_preference` (lines 437-442): the lead's own stored
assessment's `recommended_answer` (again possibly `None`), or `'A'` if the
lead has no recorded assessment. -/
def get_lead_preference (lead_agent_id : String)
    (silent_assessments : List (String × Sbar)) : Option String :=
  match silent_assessments.find? (fun p => p.1 = lead_agent_id) with
  | some p => p.2.recommended_answer
  | none => some "A"

structure ConsensusResult where
  has_consensus : Bool
  agreement_rate : ℚ
  majority_choice : Option String
  vote_distribution : List (Option String × Nat)
  detailed_votes : List (String × Option String)
deriving Repr, DecidableEq

/-- Embeds `TeamLeadAgent.check_consensus`: poll the lead then each team member. No
agent class in the repository defines `get_current_preference`, so the
`hasattr` branch is dead and `_quick_poll_member` is used for every member.
The tallied values are the (possibly `None`) preferences. -/
def check_consensus (lead_agent_id : String) (silent_assessments : List (String × Sbar))
    (team_members : List MemberState) : ConsensusResult :=
  let current_votes : List (String × Option String) :=
    (lead_agent_id, get_lead_preference lead_agent_id silent_assessments) ::
      team_members.map (fun m => (m.agent_id, quick_poll_member m))
  let vote_counts := counterItems (current_votes.map Prod.snd)
  let total_votes := current_votes.length
  match mostCommon1 vote_counts with
  | some p =>
    { has_consensus := decide (consensus_threshold ≤ (p.2 : ℚ) / (total_votes : ℚ)),
      agreement_rate := (p.2 : ℚ) / (total_votes : ℚ),
      majority_choice := p.1,
      vote_distribution := vote_counts,
      detailed_votes := current_votes }
  | none =>
    { has_consensus := false, agreement_rate := 0, majority_choice := none,
      vote_distribution := [], detailed_votes := current_votes }

/-- Modelled from the spec: "every Advisor's current preference is read as:
its most recent explicit vote if one exists, else its recommended_answer from
the silent assessment, else a fixed default letter." This definition follows
the spec's words (for comparison with `quick_poll_member`, which follows the
source); it is not part of the source embedding. -/
def spec_claimed_preference (default_letter : String) (member : MemberState) : String :=
  match member.vote.bind VoteData.choice with
  | some c => c
  | none =>
    match member.silent_assessment.bind Sbar.recommended_answer with
    | some c => c
    | none => default_letter

/-! ## Round-robin discussion (team_lead_agent.py, lines 617-682)

The class body of `TeamLeadAgent` defines `conduct_round_robin_discussion`
TWICE: the full implementation at line 617 and a second stub at line 680 that
returns `[]`. Python executes a class body top to bottom, so the later
definition overrides the earlier one; the effective method returns an empty
list. Both are embedded. -/

structure Opinion where
  specialty : String
  summary : String
  full_response : String
deriving Repr, DecidableEq

structure TurnEntry where
  speaker : String
  specialty : String
  message : String
  order : Nat
deriving Repr, DecidableEq

/-- The member loop of the line-617 implementation. Every consulting member is
a `SpecialistAgent` and therefore has `participate_in_round_robin` (so the
`hasattr` fallback is dead); `respond` abstracts that model call, which
receives the accumulated previous opinions. -/
def round_robin_go (respond : MemberState → List Opinion → String) :
    List MemberState → List Opinion → Nat → List TurnEntry
  | [], _, _ => []
  | member :: rest, previous_opinions, i =>
    let response := respond member previous_opinions
    let opinion : Opinion :=
      { specialty := member.specialty,
        summary := if 200 < response.length then response.take 200 ++ "..." else response,
        full_response := response }
    { speaker := member.agent_id, specialty := member.specialty,
      message := response, order := i + 1 } ::
      round_robin_go respond rest (previous_opinions ++ [opinion]) (i + 1)

/-- The SHADOWED first definition (line 617): iterate `self.team_members` in
their stored order — the lead itself never takes a turn. -/
def conduct_round_robin_discussion_v1 (respond : MemberState → List Opinion → String)
    (team_members : List MemberState) : List TurnEntry :=
  round_robin_go respond team_members [] 0

/-- The EFFECTIVE `conduct_round_robin_discussion`: the second definition in
the class body (line 680) overrides the first and returns an empty list, and
it is what `_conduct_round_robin` (round 0 of the round loop) actually calls. -/
def conduct_round_robin_discussion (respond : MemberState → List Opinion → String)
    (team_members : List MemberState) : List TurnEntry :=
  []

/-! ## Concrete inputs used by witnesses and counterexamples -/

/-- An SBAR record carrying just a recommended answer. -/
def mkSbar (r : Option String) : Sbar :=
  { situation := "", background := "", assessment := "", recommendation := "",
    recommended_answer := r, raw_response := "" }

/-- Five silent assessments recommending A, A, A, A, B (the spec's example). -/
def exAssessAAAAB : List (String × Sbar) :=
  [("lead_physician", mkSbar (some "A")), ("specialist_1", mkSbar (some "A")),
   ("specialist_2", mkSbar (some "A")), ("specialist_3", mkSbar (some "A")),
   ("specialist_4", mkSbar (some "B"))]

/-- Two split assessments: no initial consensus (each share is 1/2 < 0.8). -/
def exAssessSplit : List (String × Sbar) :=
  [("lead_physician", mkSbar (some "A")), ("specialist_1", mkSbar (some "B"))]

/-- A placeholder for the loop-exit final decision (its content is irrelevant
to the counting claims). -/
def exFinalDecision : Decision :=
  { choice := some "A", consensus_achieved := false, early_consensus := false,
    final_agreement_rate := 1/2 }

/-- A member whose silent assessment recommends A but whose recorded vote
chose B. -/
def exMemberVoteB : MemberState :=
  { agent_id := "specialist_1", specialty := "Cardiologist", relevance_score := 1,
    silent_assessment := some (mkSbar (some "A")),
    vote := some { choice := some "B", confidence := 9/10,
                   rationale := "clear lab findings", raw_response := "" } }

/-- A two-member team: an organ-system specialist stored before a
diagnostic-category specialist. -/
def exTeamC5 : List MemberState :=
  [{ agent_id := "specialist_1", specialty := "Cardiologist", relevance_score := 1,
     silent_assessment := some (mkSbar (some "A")), vote := none },
   { agent_id := "specialist_2", specialty := "Pathologist", relevance_score := 1/2,
     silent_assessment := some (mkSbar (some "A")), vote := none }]

/-- A fixed response oracle for discussion turns. -/
def exRespond : MemberState → List Opinion → String :=
  fun _ _ => "I concur with the assessment."

/-! # Helper lemmas -/

theorem mem_firstOccs {α : Type} [DecidableEq α] (a : α) (l : List α) :
    a ∈ firstOccs l ↔ a ∈ l := by
  induction l using firstOccs.induct with
  | case1 => simp [firstOccs]
  | case2 b t ih =>
    rw [firstOccs]
    simp only [List.mem_cons, ih, List.mem_filter]
    constructor
    · rintro (h | ⟨h, _⟩)
      · exact Or.inl h
      · exact Or.inr h
    · rintro (h | h)
      · exact Or.inl h
      · by_cases hab : a = b
        · exact Or.inl hab
        · exact Or.inr ⟨h, by simp [hab]⟩

theorem counterItems_mem {α : Type} [DecidableEq α] {l : List α} {p : α × Nat}
    (h : p ∈ counterItems l) : p.1 ∈ l ∧ p.2 = l.count p.1 := by
  unfold counterItems at h
  obtain ⟨a, ha, hp⟩ := List.mem_map.mp h
  subst hp
  exact ⟨(mem_firstOccs a l).mp ha, rfl⟩

theorem counterItems_mem_of_mem {α : Type} [DecidableEq α] {l : List α} {a : α} (h : a ∈ l) :
    (a, l.count a) ∈ counterItems l := by
  unfold counterItems
  exact List.mem_map.mpr ⟨a, (mem_firstOccs a l).mpr h, rfl⟩

theorem count_add_count_le {α : Type} [DecidableEq α] (a b : α) (hab : a ≠ b) (l : List α) :
    l.count a + l.count b ≤ l.length := by
  induction l with
  | nil => simp
  | cons c t ih =>
    simp only [List.count_cons, List.length_cons, beq_iff_eq]
    split_ifs with h1 h2 h2
    · exact absurd (h1.symm.trans h2) hab
    · omega
    · omega
    · omega

theorem foldl_best_mem {α : Type} :
    ∀ (items : List (α × Nat)) (acc : Option (α × Nat)) (p : α × Nat),
      items.foldl
        (fun acc p =>
          match acc with
          | none => some p
          | some q => if q.2 < p.2 then some p else some q)
        acc = some p →
      acc = some p ∨ p ∈ items := by
  intro items
  induction items with
  | nil => exact fun acc p h => Or.inl h
  | cons x t ih =>
    intro acc p h
    simp only [List.foldl_cons] at h
    rcases ih _ p h with h2 | h2
    · match acc with
      | none =>
        simp only at h2
        cases h2
        exact Or.inr (List.mem_cons_self x t)
      | some q =>
        simp only at h2
        split at h2
        · cases h2
          exact Or.inr (List.mem_cons_self x t)
        · exact Or.inl h2
    · exact Or.inr (List.mem_cons_of_mem _ h2)

theorem mostCommon1_eq_some_mem {α : Type} {items : List (α × Nat)} {p : α × Nat}
    (h : mostCommon1 items = some p) : p ∈ items := by
  unfold mostCommon1 at h
  rcases foldl_best_mem items none p h with h2 | h2
  · cases h2
  · exact h2

theorem le_foldr_max {v : Nat} {l : List Nat} (h : v ∈ l) : v ≤ l.foldr max 0 := by
  induction l with
  | nil => cases h
  | cons a t ih =>
    simp only [List.foldr_cons]
    rcases List.mem_cons.mp h with h1 | h1
    · subst h1
      omega
    · have := ih h1
      omega

theorem foldr_max_mem (l : List Nat) : l.foldr max 0 = 0 ∨ l.foldr max 0 ∈ l := by
  induction l with
  | nil => exact Or.inl rfl
  | cons a t ih =>
    simp only [List.foldr_cons]
    have hcase : max a (t.foldr max 0) = a ∨
        max a (t.foldr max 0) = t.foldr max 0 := by omega
    rcases hcase with hmax | hmax
    · right
      rw [hmax]
      exact List.mem_cons_self a t
    · rw [hmax]
      rcases ih with h0 | hm
      · exact Or.inl h0
      · exact Or.inr (List.mem_cons_of_mem _ hm)

/-! # Claim C9: `chat` degrades a failed model invocation to an empty answer -/

/-- Claim C9: for every prompt, if the underlying model invocation raises an
exception, `chat` returns an empty response text together with an error record
(instead of propagating the exception, which the embedding expresses by `chat`
being a total function), and leaves the conversation history untouched. -/
theorem chat_error_degrades (countTokens : String → Nat) (st : AgentState)
    (message : String) (e : String) :
    (chat countTokens st message (Except.error e)).1 = ("", ChatInfo.error e) ∧
    (chat countTokens st message (Except.error e)).2 = st :=
  ⟨rfl, rfl⟩

/-! # Claim C4: vote parsing of "VOTE: B\nCONFIDENCE: 0.85\nRATIONALE: ..." -/

/-- Claim C4 (code bug): parsing the three-line vote text
`"VOTE: B\nCONFIDENCE: 0.85\nRATIONALE: clear lab findings"` does NOT yield
choice "B": the parser takes the first character in A-E anywhere on the
`VOTE:` line, and that is the letter E of the word "VOTE" itself, so the
choice is "E" (confidence and rationale are parsed as the claim states). -/
theorem parse_vote_example_eval :
    parse_vote "VOTE: B\nCONFIDENCE: 0.85\nRATIONALE: clear lab findings" =
      { choice := some "E", confidence := 17/20, rationale := "clear lab findings",
        raw_response := "VOTE: B\nCONFIDENCE: 0.85\nRATIONALE: clear lab findings" } := by
  with_unfolding_all decide

/-! # Claim C10: SBAR parsing never invents an answer outside the option set -/

theorem setSbarField_answer (s : Sbar) (f : SbarField) (v : String) :
    (setSbarField s f v).recommended_answer = s.recommended_answer := by
  cases f <;> rfl

theorem sbar_scan_step_answer (st : Sbar × Option SbarField) (line : String) :
    (sbar_scan_step st line).1.recommended_answer = st.1.recommended_answer := by
  rcases st with ⟨sbar, cs⟩
  cases cs <;>
    · simp only [sbar_scan_step]
      split_ifs <;> simp [setSbarField_answer]

theorem sbar_scan_answer (lines : List String) :
    ∀ st : Sbar × Option SbarField,
      (lines.foldl sbar_scan_step st).1.recommended_answer = st.1.recommended_answer := by
  induction lines with
  | nil => intro st; rfl
  | cons line rest ih =>
    intro st
    rw [List.foldl_cons, ih (sbar_scan_step st line), sbar_scan_step_answer]

theorem parse_sbar_sections_answer (response : String) :
    (parse_sbar_sections response).recommended_answer = none := by
  unfold parse_sbar_sections
  rw [sbar_scan_answer]

theorem tryAnswerPatterns_mem {options : List String} :
    ∀ {ms : List (List Char)} {a : String},
      tryAnswerPatterns options ms = some a → a ∈ options := by
  intro ms
  induction ms with
  | nil => intro a h; cases h
  | cons m rest ih =>
    intro a h
    unfold tryAnswerPatterns at h
    split at h
    · split_ifs at h with hmem
      · cases h
        exact hmem
      · exact ih h
    · exact ih h

theorem fallbackAnswer_mem {response_upper : List Char} {options : List String} {a : String}
    (h : fallbackAnswer response_upper options = some a) : a ∈ options := by
  simp only [fallbackAnswer] at h
  split at h
  · rename_i p hp
    split_ifs at h
    cases h
    have hpmem := mostCommon1_eq_some_mem hp
    obtain ⟨k, hk, hpk⟩ := List.mem_map.mp hpmem
    cases hpk
    exact hk
  · cases h

/-- Claim C10: for every response text and every option set, the
`recommended_answer` produced by `TeamLeadAgent._parse_sbar` and by
`SpecialistAgent._parse_sbar` is either absent (`none`) or one of the valid
option letters — never a value outside `options`. -/
theorem parse_sbar_answer_in_options (response : String) (options : List String) :
    (team_lead_parse_sbar response options).recommended_answer ∈
        (none :: options.map some) ∧
    (specialist_parse_sbar response options).recommended_answer ∈
        (none :: options.map some) := by
  constructor
  · simp only [team_lead_parse_sbar]
    split
    · rename_i a ht
      simp only [List.mem_cons]
      exact Or.inr (List.mem_map.mpr ⟨a, tryAnswerPatterns_mem ht, rfl⟩)
    · split
      · rename_i a hf
        simp only [List.mem_cons]
        exact Or.inr (List.mem_map.mpr ⟨a, fallbackAnswer_mem hf, rfl⟩)
      · simp [parse_sbar_sections_answer]
  · simp only [specialist_parse_sbar]
    rcases hfind : options.find? (fun key =>
        containsSub response (key ++ ")") || containsSub response ("(" ++ key ++ ")") ||
          containsSub response ("Answer: " ++ key)) with _ | a
    · simp [hfind]
    · simp only [hfind, List.mem_cons]
      exact Or.inr (List.mem_map.mpr ⟨a, List.mem_of_find?_eq_some hfind, rfl⟩)

/-! # Claim C3: what an in-round consensus poll actually reads -/

/-- Claim C3, counterexample: the claimed fallback order (most recent explicit
vote first) is false on the code. `exMemberVoteB` voted B but its silent
assessment recommended A; the spec-claimed preference is "B" while
`_quick_poll_member` — the function `check_consensus` actually uses — returns
"A", and a full poll over a team containing this member tallies "A" for it. -/
theorem quick_poll_ignores_vote_counterexample :
    spec_claimed_preference "A" exMemberVoteB = "B" ∧
    quick_poll_member exMemberVoteB = some "A" ∧
    (check_consensus "lead_physician" exAssessSplit [exMemberVoteB]).detailed_votes =
      [("lead_physician", some "A"), ("specialist_1", some "A")] ∧
    some (spec_claimed_preference "A" exMemberVoteB) ≠ quick_poll_member exMemberVoteB := by
  with_unfolding_all decide

/-- Claim C3, amended: during every in-round consensus poll, the lead's
preference comes from its own stored silent assessment
(`_get_lead_preference`) and every team member's preference comes from
`_quick_poll_member`, i.e. solely from the member's silent assessment
(`'A'` only when no assessment is recorded at all); recorded votes are never
consulted — changing a member's `vote` never changes what the poll reads. The
tallied preferences then determine the agreement rate compared against the
0.8 threshold. -/
theorem check_consensus_reads_assessments_only (lead_agent_id : String)
    (silent_assessments : List (String × Sbar)) (team_members : List MemberState) :
    (check_consensus lead_agent_id silent_assessments team_members).detailed_votes =
      (lead_agent_id, get_lead_preference lead_agent_id silent_assessments) ::
        team_members.map (fun m => (m.agent_id, quick_poll_member m)) ∧
    (∀ (m : MemberState) (v : Option VoteData),
      quick_poll_member { m with vote := v } = quick_poll_member m) ∧
    (check_consensus lead_agent_id silent_assessments team_members).has_consensus =
      decide (consensus_threshold ≤
        (check_consensus lead_agent_id silent_assessments team_members).agreement_rate) := by
  refine ⟨?_, fun m v => rfl, ?_⟩
  · simp only [check_consensus]
    split <;> rfl
  · simp only [check_consensus, List.map_cons, List.map_map]
    rcases hmc : mostCommon1 (counterItems
        (get_lead_preference lead_agent_id silent_assessments ::
          List.map (Prod.snd ∘ fun m => (m.agent_id, quick_poll_member m)) team_members))
      with _ | p
    · rw [hmc]
      have h0 : ¬ (consensus_threshold ≤ (0:ℚ)) := by norm_num [consensus_threshold]
      simp [h0]
    · rw [hmc]

/-! # Claim C5: round-0 round-robin ordering -/

theorem round_robin_go_speakers (respond : MemberState → List Opinion → String) :
    ∀ (members : List MemberState) (prev : List Opinion) (i : Nat),
      (round_robin_go respond members prev i).map (fun e => (e.speaker, e.specialty)) =
        members.map (fun m => (m.agent_id, m.specialty)) := by
  intro members
  induction members with
  | nil => intro prev i; rfl
  | cons m rest ih =>
    intro prev i
    simp only [round_robin_go, List.map_cons]
    exact congrArg (fun t => (m.agent_id, m.specialty) :: t) (ih _ _)

/-- Claim C5, counterexample: on a concrete team containing a
diagnostic-category specialist (Pathologist) and an organ-system specialist
(Cardiologist), the effective round-0 round-robin produces an EMPTY discussion
log, so nobody — in particular not the lead — speaks last. -/
theorem round_robin_empty_counterexample :
    conduct_round_robin_discussion exRespond exTeamC5 = [] ∧
    ((conduct_round_robin_discussion exRespond exTeamC5).map TurnEntry.speaker).getLast?
      ≠ some "lead_physician" := by
  with_unfolding_all decide

/-- Claim C5, amended: `TeamLeadAgent` defines `conduct_round_robin_discussion`
twice; the later (effective) definition returns an empty discussion log for
every team, so round 0 has no speakers at all. Even the shadowed first
implementation would speak the stored `team_members` in their given order —
with no diagnostic-first reordering — and the lead (which is not among
`team_members`) would never take a turn. -/
theorem round_robin_effective_empty (respond : MemberState → List Opinion → String)
    (team_members : List MemberState) :
    conduct_round_robin_discussion respond team_members = [] ∧
    (conduct_round_robin_discussion_v1 respond team_members).map
        (fun e => (e.speaker, e.specialty)) =
      team_members.map (fun m => (m.agent_id, m.specialty)) :=
  ⟨rfl, round_robin_go_speakers respond team_members [] 0⟩

/-! # Claim C2: the round loop is bounded and the final decision is unique -/

theorem countD_nil : countDiscussions [] = 0 := rfl

theorem countF_nil : countFinalDecisions [] = 0 := rfl

theorem countD_cons (e : Event) (l : List Event) :
    countDiscussions (e :: l) =
      countDiscussions l + (match e with | Event.discussion _ => 1 | _ => 0) := by
  cases e <;> simp [countDiscussions, List.countP_cons]

theorem countF_cons (e : Event) (l : List Event) :
    countFinalDecisions (e :: l) =
      countFinalDecisions l + (match e with | Event.final_decision _ => 1 | _ => 0) := by
  cases e <;> simp [countFinalDecisions, List.countP_cons]

theorem countD_append (l₁ l₂ : List Event) :
    countDiscussions (l₁ ++ l₂) = countDiscussions l₁ + countDiscussions l₂ := by
  simp [countDiscussions, List.countP_append]

theorem countF_append (l₁ l₂ : List Event) :
    countFinalDecisions (l₁ ++ l₂) = countFinalDecisions l₁ + countFinalDecisions l₂ := by
  simp [countFinalDecisions, List.countP_append]

theorem countD_feedback_ite (c : Prop) [Decidable c] (r : Nat) :
    countDiscussions (if c then [Event.moderator_feedback r] else []) = 0 := by
  split <;> rfl

theorem countF_feedback_ite (c : Prop) [Decidable c] (r : Nat) :
    countFinalDecisions (if c then [Event.moderator_feedback r] else []) = 0 := by
  split <;> rfl

theorem round_loop_counts (poll : Nat → Bool) (max_rounds : Nat) :
    ∀ r, countDiscussions (consensus_round_loop poll max_rounds r) ≤ max_rounds - r ∧
      countFinalDecisions (consensus_round_loop poll max_rounds r) = 0 := by
  intro r
  induction r using consensus_round_loop.induct poll max_rounds with
  | case1 r hlt ih =>
    rw [consensus_round_loop, dif_pos hlt]
    obtain ⟨ih1, ih2⟩ := ih
    cases hp : poll r
    · rw [if_neg Bool.false_ne_true]
      constructor
      · simp [countD_cons, countD_append, countD_feedback_ite]
        omega
      · simp [countF_cons, countF_append, countF_feedback_ite, ih2]
    · rw [if_pos rfl]
      constructor
      · simp [countD_cons, countD_nil]
        omega
      · simp [countF_cons, countF_nil]
  | case2 r hge =>
    rw [consensus_round_loop, dif_neg hge]
    exact ⟨Nat.zero_le _, rfl⟩

theorem round_loop_countD_eq (poll : Nat → Bool) (max_rounds : Nat)
    (hall : ∀ k, poll k = false) :
    ∀ r, countDiscussions (consensus_round_loop poll max_rounds r) = max_rounds - r := by
  intro r
  induction r using consensus_round_loop.induct poll max_rounds with
  | case1 r hlt ih =>
    rw [consensus_round_loop, dif_pos hlt]
    rw [hall r, if_neg Bool.false_ne_true]
    simp [countD_cons, countD_append, countD_feedback_ite]
    omega
  | case2 r hge =>
    rw [consensus_round_loop, dif_neg hge]
    rw [countD_nil]
    omega

/-- Claim C2: for every `max_rounds ≥ 1`, the coordination trace contains at
most `max_rounds` discussion rounds and exactly one final decision, however
the consensus polls turn out; and when there is no initial consensus and no
poll ever succeeds, the trace contains exactly `max_rounds` discussion rounds
(so with `max_rounds = 5` the final decision comes after the 5th round). -/
theorem coordinate_bounded_rounds_one_decision (silent_assessments : List (String × Sbar))
    (poll : Nat → Bool) (final_decision_result : Decision) (max_rounds : Nat)
    (hmr : 1 ≤ max_rounds) :
    countDiscussions (coordinate_moderate_complexity_case silent_assessments poll
        final_decision_result max_rounds) ≤ max_rounds ∧
    countFinalDecisions (coordinate_moderate_complexity_case silent_assessments poll
        final_decision_result max_rounds) = 1 ∧
    ((check_initial_consensus silent_assessments).has_consensus = false →
      (∀ k, poll k = false) →
      countDiscussions (coordinate_moderate_complexity_case silent_assessments poll
        final_decision_result max_rounds) = max_rounds) := by
  unfold coordinate_moderate_complexity_case
  by_cases hic : (check_initial_consensus silent_assessments).has_consensus = true
  · rw [if_pos hic]
    refine ⟨?_, ?_, ?_⟩
    · rw [countD_cons]
      simp only [countD_nil]
      omega
    · rw [countF_cons]
      simp only [countF_nil]
    · intro hfalse
      rw [hfalse] at hic
      exact absurd hic Bool.false_ne_true
  · rw [if_neg hic]
    have hc := round_loop_counts poll max_rounds 0
    refine ⟨?_, ?_, ?_⟩
    · rw [countD_append, countD_cons]
      simp only [countD_nil]
      omega
    · rw [countF_append, countF_cons]
      simp only [countF_nil]
      omega
    · intro _ hall
      have he := round_loop_countD_eq poll max_rounds hall 0
      rw [countD_append, countD_cons]
      simp only [countD_nil]
      omega

/-- Witness for C2 at `max_rounds = 5` with polls that never reach agreement
and split initial assessments: at most (in fact exactly) 5 discussion rounds
and exactly one final decision. -/
theorem coordinate_bounded_rounds_witness :
    (countDiscussions (coordinate_moderate_complexity_case exAssessSplit (fun _ : Nat => false)
        exFinalDecision 5) ≤ 5 ∧
      countFinalDecisions (coordinate_moderate_complexity_case exAssessSplit (fun _ : Nat => false)
        exFinalDecision 5) = 1 ∧
      ((check_initial_consensus exAssessSplit).has_consensus = false →
        (∀ k, (fun _ : Nat => false) k = false) →
        countDiscussions (coordinate_moderate_complexity_case exAssessSplit (fun _ : Nat => false)
          exFinalDecision 5) = 5)) ∧
    countDiscussions (coordinate_moderate_complexity_case exAssessSplit (fun _ : Nat => false)
      exFinalDecision 5) = 5 :=
  ⟨coordinate_bounded_rounds_one_decision exAssessSplit (fun _ : Nat => false) exFinalDecision 5
      (by decide),
   (coordinate_bounded_rounds_one_decision exAssessSplit (fun _ : Nat => false) exFinalDecision 5
      (by decide)).2.2 (by with_unfolding_all decide) (fun _ => rfl)⟩

/-! # Claim C1: ≥80% agreement in silent assessments short-circuits to the
final decision -/

/-- Claim C1: if at least 80% of the non-absent recommended answers collected
in the silent-assessment phase agree on option `o`, the coordinator's trace is
a single final-decision event (no discussion rounds at all), its choice is
`o`, and its `early_consensus` flag is true. -/
theorem early_consensus_short_circuit (silent_assessments : List (String × Sbar))
    (poll : Nat → Bool) (final_decision_result : Decision) (max_rounds : Nat) (o : String)
    (ho : o ∈ recommendationsOf silent_assessments)
    (hrate : (4/5 : ℚ) * ((recommendationsOf silent_assessments).length : ℚ) ≤
      ((recommendationsOf silent_assessments).count o : ℚ)) :
    coordinate_moderate_complexity_case silent_assessments poll final_decision_result
        max_rounds =
      [Event.final_decision (make_final_decision silent_assessments)] ∧
    (make_final_decision silent_assessments).early_consensus = true ∧
    (make_final_decision silent_assessments).choice = some o ∧
    countDiscussions (coordinate_moderate_complexity_case silent_assessments poll
      final_decision_result max_rounds) = 0 := by
  set recs := recommendationsOf silent_assessments with hrecs
  have hne : recs ≠ [] := List.ne_nil_of_mem ho
  have htotal : 0 < recs.length := List.length_pos.mpr hne
  have htotalQ : (0 : ℚ) < (recs.length : ℚ) := by exact_mod_cast htotal
  -- the entry for o in the tally satisfies the threshold test
  have hmem_o : (o, recs.count o) ∈ counterItems recs := counterItems_mem_of_mem ho
  have hpred_o : decide (consensus_threshold ≤
      ((recs.count o : Nat) : ℚ) / (recs.length : ℚ)) = true := by
    rw [decide_eq_true_iff, consensus_threshold, le_div_iff₀ htotalQ]
    have h45 : (8/10 : ℚ) = 4/5 := by norm_num
    rw [h45]
    exact hrate
  -- hence find? succeeds; whatever entry it returns names o
  have hfound : (counterItems recs |>.find? (fun p =>
      decide (consensus_threshold ≤ (p.2 : ℚ) / (recs.length : ℚ)))).isSome := by
    rw [List.find?_isSome]
    exact ⟨(o, recs.count o), hmem_o, hpred_o⟩
  obtain ⟨p, hp⟩ := Option.isSome_iff_exists.mp hfound
  have hp_pred := List.find?_some hp
  have hp_mem := List.mem_of_find?_eq_some hp
  obtain ⟨hp1, hp2⟩ := counterItems_mem hp_mem
  have hp_eq_o : p.1 = o := by
    by_contra hne_o
    have hcount := count_add_count_le p.1 o hne_o recs
    rw [decide_eq_true_iff, consensus_threshold] at hp_pred
    rw [le_div_iff₀ htotalQ] at hp_pred
    have hcQ : ((recs.count p.1 : Nat) : ℚ) + ((recs.count o : Nat) : ℚ) ≤
        (recs.length : ℚ) := by
      rw [hrecs] at *
      exact_mod_cast hcount
    rw [hp2] at hp_pred
    nlinarith [hp_pred, hrate, hcQ, htotalQ]
  -- the initial consensus check returns (true, some o)
  have hic : check_initial_consensus silent_assessments =
      { has_consensus := true, choice := some p.1,
        agreement_rate := (p.2 : ℚ) / (recs.length : ℚ),
        vote_breakdown := counterItems recs } := by
    simp only [check_initial_consensus]
    rw [← hrecs]
    rw [if_neg (by simp [hne])]
    rw [hp]
  have hmfd : (make_final_decision silent_assessments).early_consensus = true ∧
      (make_final_decision silent_assessments).choice = some o := by
    rw [make_final_decision, hic]
    exact ⟨rfl, by rw [hp_eq_o]⟩
  have htrace : coordinate_moderate_complexity_case silent_assessments poll
      final_decision_result max_rounds =
        [Event.final_decision (make_final_decision silent_assessments)] := by
    rw [coordinate_moderate_complexity_case]
    rw [if_pos (by rw [hic])]
  refine ⟨htrace, hmfd.1, hmfd.2, ?_⟩
  simp [htrace, countD_cons, countD_nil]

/-- Witness for C1 at the spec's example: silent assessments recommending
[A, A, A, A, B] (4/5 = 80% for A) short-circuit to an early-consensus final
decision choosing A, with no discussion rounds. -/
theorem early_consensus_short_circuit_witness :
    coordinate_moderate_complexity_case exAssessAAAAB (fun _ : Nat => false)
        exFinalDecision 5 =
      [Event.final_decision (make_final_decision exAssessAAAAB)] ∧
    (make_final_decision exAssessAAAAB).early_consensus = true ∧
    (make_final_decision exAssessAAAAB).choice = some "A" ∧
    countDiscussions (coordinate_moderate_complexity_case exAssessAAAAB (fun _ : Nat => false)
      exFinalDecision 5) = 0 :=
  early_consensus_short_circuit exAssessAAAAB (fun _ : Nat => false) exFinalDecision 5 "A"
    (by with_unfolding_all decide) (by with_unfolding_all decide)

/-! # Claim C6: normalized relevance scores lie in (0,1] -/

theorem calc_scores_eq (q : String) :
    calculate_relevance_scores q =
      (raw_scores q).map
        (fun p => (p.1, (p.2 : ℚ) / (max_raw_score (raw_scores q) : ℚ))) := rfl

theorem raw_scores_pos {q : String} {p : String × Nat} (h : p ∈ raw_scores q) : 0 < p.2 := by
  simp only [raw_scores] at h
  obtain ⟨a, _, hsome⟩ := List.mem_filterMap.mp h
  split_ifs at hsome with hk
  cases hsome
  exact hk

theorem raw_le_max {q : String} {p : String × Nat} (h : p ∈ raw_scores q) :
    p.2 ≤ max_raw_score (raw_scores q) := by
  unfold max_raw_score
  rw [if_neg (by simp [List.isEmpty_iff, List.ne_nil_of_mem h])]
  exact le_foldr_max (List.mem_map_of_mem Prod.snd h)

/-- Claim C6, amended: every relevance score returned by
`calculate_relevance_scores` lies in (0,1], and whenever the returned mapping
is non-empty AT LEAST ONE specialty attains the value 1.0 (every specialty
tied at the maximum raw score does, so there can be more than one). -/
theorem relevance_scores_normalized :
    (∀ (question specialty : String) (v : ℚ),
        (specialty, v) ∈ calculate_relevance_scores question → 0 < v ∧ v ≤ 1) ∧
    (∀ question : String, calculate_relevance_scores question ≠ [] →
        ∃ specialty, (specialty, (1 : ℚ)) ∈ calculate_relevance_scores question) := by
  constructor
  · intro q s v hmem
    rw [calc_scores_eq] at hmem
    obtain ⟨p, hp, heq⟩ := List.mem_map.mp hmem
    rw [Prod.ext_iff] at heq
    obtain ⟨h1, h2⟩ := heq
    subst h2
    have hpos := raw_scores_pos hp
    have hle := raw_le_max hp
    have hmaxpos : 0 < max_raw_score (raw_scores q) := lt_of_lt_of_le hpos hle
    have hposQ : (0 : ℚ) < (p.2 : ℚ) := by exact_mod_cast hpos
    have hmaxposQ : (0 : ℚ) < ((max_raw_score (raw_scores q) : Nat) : ℚ) := by
      exact_mod_cast hmaxpos
    refine ⟨div_pos hposQ hmaxposQ, ?_⟩
    rw [div_le_one hmaxposQ]
    exact_mod_cast hle
  · intro q hne
    have hraw_ne : raw_scores q ≠ [] := by
      intro h0
      apply hne
      rw [calc_scores_eq, h0]
      rfl
    obtain ⟨p0, hp0⟩ := List.exists_mem_of_ne_nil _ hraw_ne
    have hM : max_raw_score (raw_scores q) =
        ((raw_scores q).map Prod.snd).foldr max 0 := by
      unfold max_raw_score
      rw [if_neg (by simp [List.isEmpty_iff, hraw_ne])]
    have hMpos : 0 < max_raw_score (raw_scores q) :=
      lt_of_lt_of_le (raw_scores_pos hp0) (raw_le_max hp0)
    rcases foldr_max_mem ((raw_scores q).map Prod.snd) with h0 | hmem
    · rw [← hM] at h0
      omega
    · rw [← hM] at hmem
      obtain ⟨p, hp, hpM⟩ := List.mem_map.mp hmem
      refine ⟨p.1, ?_⟩
      rw [calc_scores_eq]
      have hone : ((p.2 : Nat) : ℚ) / ((max_raw_score (raw_scores q) : Nat) : ℚ) = 1 := by
        rw [hpM]
        exact div_self (by exact_mod_cast hMpos.ne')
      exact List.mem_map.mpr ⟨p, hp, by rw [hone]⟩

/-- Witness for C6 at the question "skin bone": the Dermatologist's score 1
lies in (0,1], and some specialty attains 1.0. -/
theorem relevance_scores_normalized_witness :
    ((0 : ℚ) < 1 ∧ (1 : ℚ) ≤ 1) ∧
    ∃ specialty, (specialty, (1 : ℚ)) ∈ calculate_relevance_scores "skin bone" :=
  ⟨relevance_scores_normalized.1 "skin bone" "Dermatologist" 1 (by with_unfolding_all decide),
   relevance_scores_normalized.2 "skin bone" (by with_unfolding_all decide)⟩

/-- Claim C6, counterexample to "exactly one specialty attains 1.0": for the
question "skin bone" both the Orthopedic Surgeon ("bone") and the
Dermatologist ("skin") score the maximum 2, so both normalize to 1.0. -/
theorem relevance_scores_two_maxima :
    ¬ ∃! specialty : String, (specialty, (1 : ℚ)) ∈ calculate_relevance_scores "skin bone" := by
  rintro ⟨s, _, huniq⟩
  have h1 := huniq "Dermatologist" (by with_unfolding_all decide)
  have h2 := huniq "Orthopedic Surgeon" (by with_unfolding_all decide)
  rw [← h2] at h1
  exact absurd h1 (by decide)

/-! # Claims C7 and C8: flat-panel team size and weight budget -/

theorem select_specialists_length :
    ∀ (l acc : List (String × ℚ)), acc.length < 4 →
      (select_specialists l acc).length ≤ 4 := by
  intro l acc
  induction l, acc using select_specialists.induct with
  | case1 acc =>
    intro h
    rw [select_specialists]
    omega
  | case2 specialty score rest acc hcond acc2 hfull =>
    intro h
    rw [select_specialists, if_pos hcond, if_pos hfull]
    simp only [List.length_append, List.length_cons, List.length_nil]
    omega
  | case3 specialty score rest acc hcond acc2 hfull ih =>
    intro _
    rw [select_specialists, if_pos hcond, if_neg hfull]
    exact ih (by simpa using hfull)
  | case4 specialty score rest acc hcond ih =>
    intro h
    rw [select_specialists, if_neg hcond]
    exact ih h

theorem specialties_keys_nodup : (SPECIALTIES.map Prod.fst).Nodup := by decide

/-- The backfill pool (specialties not yet selected) together with the
selection covers all 20 catalog keys. -/
theorem remaining_length_ge (scores sel : List (String × ℚ)) :
    (SPECIALTIES.map Prod.fst).length ≤
      ((((SPECIALTIES.map Prod.fst).filter
          (fun s => sel.countP (fun p => p.1 = s) = 0)).map
        (fun s => (s, dictGetD scores s (1/10)))).length) + sel.length := by
  have hsplit := @List.length_eq_length_filter_add String (SPECIALTIES.map Prod.fst)
    (fun s => sel.countP (fun p => p.1 = s) = 0)
  have hsub : ((SPECIALTIES.map Prod.fst).filter
      (fun s => !(decide (sel.countP (fun p => p.1 = s) = 0)))) ⊆ sel.map Prod.fst := by
    intro s hs
    obtain ⟨_, hcond⟩ := List.mem_filter.mp hs
    have hpos : 0 < sel.countP (fun p => p.1 = s) := by
      rcases Nat.eq_zero_or_pos (sel.countP (fun p => p.1 = s)) with h0 | h0
      · rw [h0] at hcond
        simp at hcond
      · exact h0
    obtain ⟨pr, hpr, hpr2⟩ := List.countP_pos_iff.mp hpos
    exact List.mem_map.mpr ⟨pr, hpr, of_decide_eq_true hpr2⟩
  have hlen := (List.subperm_of_subset
    (specialties_keys_nodup.filter _) hsub).length_le
  simp only [List.length_map] at hsplit hlen ⊢
  omega

theorem sortByScoreDesc_length (l : List (String × ℚ)) :
    (sortByScoreDesc l).length = l.length := by
  rw [sortByScoreDesc]
  exact List.length_mergeSort l

theorem selected_specialists_length (q : String) :
    (selected_specialists q).length = 4 := by
  have hsel_le : (select_specialists
      ((sortByScoreDesc (calculate_relevance_scores q)).take 8) []).length ≤ 4 :=
    select_specialists_length _ _ (by simp)
  simp only [selected_specialists]
  by_cases hlt : (select_specialists
      ((sortByScoreDesc (calculate_relevance_scores q)).take 8) []).length < 4
  · rw [if_pos hlt]
    have hrem := remaining_length_ge (calculate_relevance_scores q)
      (select_specialists ((sortByScoreDesc (calculate_relevance_scores q)).take 8) [])
    rw [List.length_append, List.length_take, sortByScoreDesc_length]
    have h20 : (SPECIALTIES.map Prod.fst).length = 20 := by decide
    omega
  · rw [if_neg hlt]
    omega

/-- The team returned by `recruit_for_moderate_complexity`, with its `let`
bindings unfolded. -/
theorem recruit_eq (q : String) :
    recruit_for_moderate_complexity q =
      { agent_id := "lead_physician", specialty := "Internal Medicine",
        role := "Team Lead",
        expertise := get_specialist_description "Internal Medicine",
        relevance_score := 9/10, decision_weight := 3/10 } ::
      ((selected_specialists q).take 4).enum.map (fun p =>
        { agent_id := "specialist_" ++ toString (p.1 + 1), specialty := p.2.1,
          role := "Consulting Specialist",
          expertise := get_specialist_description p.2.1,
          relevance_score := p.2.2,
          decision_weight := if 0 < total_relevance q then
            (p.2.2 / total_relevance q) * (7/10) else 7/40 }) := rfl

/-- Claim C7: for every question, flat-panel recruitment returns exactly 5
members — the fixed lead (role "Team Lead") followed by exactly 4 consulting
specialists — even when no specialty scored above 0. -/
theorem recruit_flat_panel_size (q : String) :
    (recruit_for_moderate_complexity q).length = 5 ∧
    ((recruit_for_moderate_complexity q).head?).map TeamMember.role = some "Team Lead" ∧
    ((recruit_for_moderate_complexity q).drop 1).length = 4 ∧
    ∀ m ∈ (recruit_for_moderate_complexity q).drop 1, m.role = "Consulting Specialist" := by
  have htake : ((selected_specialists q).take 4).length = 4 := by
    rw [List.length_take, selected_specialists_length]
    omega
  refine ⟨?_, ?_, ?_, ?_⟩
  · rw [recruit_eq, List.length_cons, List.length_map, List.enum_length, htake]
  · rw [recruit_eq]
    rfl
  · rw [recruit_eq, List.drop_one, List.tail_cons, List.length_map, List.enum_length, htake]
  · intro m hm
    rw [recruit_eq, List.drop_one, List.tail_cons] at hm
    obtain ⟨p, _, hpm⟩ := List.mem_map.mp hm
    rw [← hpm]

/-- Claim C8: for every question whose selected consultants have positive
total relevance, the four consulting members' decision weights sum to exactly
7/10 (each weight being `score / total × 0.7`). -/
theorem consultant_weights_sum (q : String) (htot : 0 < total_relevance q) :
    (((recruit_for_moderate_complexity q).drop 1).map TeamMember.decision_weight).sum
      = 7/10 := by
  rw [recruit_eq, List.drop_one, List.tail_cons, List.map_map]
  have htake : (selected_specialists q).take 4 = selected_specialists q := by
    conv_lhs => rw [← selected_specialists_length q]
    exact List.take_length _
  rw [htake]
  have h1 : ((selected_specialists q).enum.map
      (TeamMember.decision_weight ∘ fun p =>
        ({ agent_id := "specialist_" ++ toString (p.1 + 1), specialty := p.2.1,
           role := "Consulting Specialist",
           expertise := get_specialist_description p.2.1,
           relevance_score := p.2.2,
           decision_weight := if 0 < total_relevance q then
             (p.2.2 / total_relevance q) * (7/10) else 7/40 } : TeamMember))) =
      (selected_specialists q).enum.map
        ((fun x => if 0 < total_relevance q then
          (x.2 / total_relevance q) * (7/10) else 7/40) ∘ Prod.snd) := rfl
  rw [h1, ← List.map_map, List.enum_map_snd]
  have h2 : (selected_specialists q).map
      (fun x => if 0 < total_relevance q then
        (x.2 / total_relevance q) * (7/10) else 7/40) =
      (selected_specialists q).map
        (fun x => x.2 * ((total_relevance q)⁻¹ * (7/10))) := by
    apply List.map_congr_left
    intro x _
    rw [if_pos htot, div_eq_mul_inv, mul_assoc]
  rw [h2, List.sum_map_mul_right]
  have hsum : ((selected_specialists q).map (fun x => x.2)).sum = total_relevance q := rfl
  rw [hsum, ← mul_assoc, mul_inv_cancel₀ htot.ne', one_mul]

/-- Witness for C8 at the empty question: no specialty scores, the four
backfilled consultants each carry relevance 0.1, the total is 0.4 > 0, and
the weights sum to 7/10. -/
theorem consultant_weights_sum_witness :
    0 < total_relevance "" ∧
    (((recruit_for_moderate_complexity "").drop 1).map TeamMember.decision_weight).sum
      = 7/10 :=
  ⟨by with_unfolding_all decide,
   consultant_weights_sum "" (by with_unfolding_all decide)⟩

end MedQA
